import Mathlib

/-!
Verification development for the martingale paper-trading repository.

The definitions below are shallow embeddings of the Python source:
  - association lists over asset ids stand for Python dicts
    (src/models.py Portfolio.get_holdings_map / set_holdings keep every
    entry, including quantity 0; nothing filters zero values),
  - rationals stand for the float/Decimal arithmetic (arithmetic is exact
    in the embedding; every rational is finite),
  - Except stands for raised-and-caught ValidationError control flow.
-/

set_option maxHeartbeats 1000000

namespace Martingale

abbrev AssetId := Nat

/-- Python dict read `m.get(k)`. -/
def dictLookup {α : Type} (m : List (AssetId × α)) (k : AssetId) : Option α :=
  match m with
  | [] => none
  | (k', v) :: rest => if k' = k then some v else dictLookup rest k

/-- Python dict write `m[k] = v` (replace in place, else append). -/
def dictSet {α : Type} (m : List (AssetId × α)) (k : AssetId) (v : α) :
    List (AssetId × α) :=
  match m with
  | [] => [(k, v)]
  | (k', v') :: rest =>
      if k' = k then (k', v) :: rest else (k', v') :: dictSet rest k v

/-- Python dict delete `del m[k]`. -/
def dictDelete {α : Type} (m : List (AssetId × α)) (k : AssetId) :
    List (AssetId × α) :=
  match m with
  | [] => []
  | (k', v') :: rest =>
      if k' = k then rest else (k', v') :: dictDelete rest k

/-- Python membership test `k in m`. -/
def dictContains {α : Type} (m : List (AssetId × α)) (k : AssetId) : Bool :=
  (dictLookup m k).isSome

/-- One `position_info` value: running VWAP accumulator (src/app.py). -/
structure PosInfo where
  total_cost : ℚ
  total_quantity : ℚ
deriving Repr, DecidableEq

/-- The mutable per-user ledger state of src/models.py Portfolio:
`cash`, `holdings` (asset id to quantity) and `position_info`.
`Portfolio._serialize_holdings` keeps every entry it is given, including
quantity 0, so persistence is the identity on this model. -/
structure PortfolioState where
  cash : ℚ
  holdings : List (AssetId × ℚ)
  position_info : List (AssetId × PosInfo)
deriving Repr, DecidableEq

inductive TradeType
  | buy
  | sell
deriving Repr, DecidableEq

/-- src/app.py handle_trade, lines 1257-1261: ensure a holdings entry and a
position_info entry exist for the traded asset (0-valued defaults). -/
def ensureEntries (st : PortfolioState) (aid : AssetId) : PortfolioState :=
  { st with
    holdings :=
      if dictContains st.holdings aid then st.holdings
      else dictSet st.holdings aid 0
    position_info :=
      if dictContains st.position_info aid then st.position_info
      else dictSet st.position_info aid ⟨0, 0⟩ }

/-- src/app.py handle_trade, post-validation core (lines 1263-1363).
`quantity`, `price`, `cost` are the already validated values; on the buy
side `validate_sufficient_funds` rejects when `cash < cost`, on the sell
side `validate_sufficient_holdings` rejects when `holdings[aid] < quantity`.
A rejected trade emits a failure message and returns before any mutation.
The sell branch subtracts the quantity and proportionally strips cost
basis; it never deletes the zero-valued entries. -/
def handleTrade (st0 : PortfolioState) (tt : TradeType) (aid : AssetId)
    (quantity price cost : ℚ) : Except String PortfolioState :=
  let st := ensureEntries st0 aid
  let _ := price
  match tt with
  | .buy =>
      if st.cash < cost then .error "Insufficient funds"
      else
        let h := (dictLookup st.holdings aid).getD 0
        let pi := (dictLookup st.position_info aid).getD ⟨0, 0⟩
        .ok { cash := st.cash - cost
              holdings := dictSet st.holdings aid (h + quantity)
              position_info := dictSet st.position_info aid
                ⟨pi.total_cost + cost, pi.total_quantity + quantity⟩ }
  | .sell =>
      let h := (dictLookup st.holdings aid).getD 0
      if h < quantity then .error "Insufficient holdings"
      else
        let pi := (dictLookup st.position_info aid).getD ⟨0, 0⟩
        let pi' : PosInfo :=
          if 0 < pi.total_quantity then
            let proportion_sold := quantity / pi.total_quantity
            let cost_basis_sold := pi.total_cost * proportion_sold
            ⟨pi.total_cost - cost_basis_sold, pi.total_quantity - quantity⟩
          else pi
        .ok { cash := st.cash + cost
              holdings := dictSet st.holdings aid (h - quantity)
              position_info := dictSet st.position_info aid pi' }

/-- The state the caller observes: a rejected trade leaves the stored
portfolio untouched (handle_trade returns before set_holdings). -/
def applyTrade (st : PortfolioState) (tt : TradeType) (aid : AssetId)
    (quantity price cost : ℚ) : PortfolioState :=
  match handleTrade st tt aid quantity price cost with
  | .ok st' => st'
  | .error _ => st

-- Basic dict lemmas

theorem dictLookup_dictSet_self {α : Type} (m : List (AssetId × α))
    (k : AssetId) (v : α) : dictLookup (dictSet m k v) k = some v := by
  induction m with
  | nil => simp [dictSet, dictLookup]
  | cons hd tl ih =>
      obtain ⟨k', v'⟩ := hd
      by_cases h : k' = k
      · simp [dictSet, dictLookup, h]
      · simp [dictSet, dictLookup, h, ih]

theorem dictLookup_dictSet_ne {α : Type} (m : List (AssetId × α))
    (k k' : AssetId) (v : α) (hne : k ≠ k') :
    dictLookup (dictSet m k v) k' = dictLookup m k' := by
  induction m with
  | nil => simp [dictSet, dictLookup, hne]
  | cons hd tl ih =>
      obtain ⟨k0, v0⟩ := hd
      by_cases h : k0 = k
      · subst h
        simp [dictSet, dictLookup, hne]
      · simp [dictSet, dictLookup, h, ih]

theorem dictLookup_ensureEntries_holdings (st : PortfolioState)
    (aid : AssetId) :
    dictLookup (ensureEntries st aid).holdings aid =
      some ((dictLookup st.holdings aid).getD 0) := by
  unfold ensureEntries dictContains
  cases h : dictLookup st.holdings aid with
  | none => simp [h, dictLookup_dictSet_self]
  | some v => simp [h]

theorem dictLookup_ensureEntries_position (st : PortfolioState)
    (aid : AssetId) :
    dictLookup (ensureEntries st aid).position_info aid =
      some ((dictLookup st.position_info aid).getD ⟨0, 0⟩) := by
  unfold ensureEntries dictContains
  cases h : dictLookup st.position_info aid with
  | none => simp [h, dictLookup_dictSet_self]
  | some v => simp [h]

theorem ensureEntries_holdingsNonneg (st : PortfolioState) (aid : AssetId)
    (h : ∀ k q, dictLookup st.holdings k = some q → 0 ≤ q) :
    ∀ k q, dictLookup (ensureEntries st aid).holdings k = some q → 0 ≤ q := by
  intro k q hk
  unfold ensureEntries dictContains at hk
  by_cases hc : (dictLookup st.holdings aid).isSome
  · simp only [hc, if_pos] at hk
    exact h k q hk
  · simp only [hc, Bool.false_eq_true, if_neg, not_false_iff] at hk
    by_cases hik : aid = k
    · subst hik
      rw [dictLookup_dictSet_self] at hk
      cases hk
      exact le_refl 0
    · rw [dictLookup_dictSet_ne _ _ _ _ hik] at hk
      exact h k q hk

/-- C1 counterexample: concrete run of the sell branch of handle_trade.
Portfolio holds 10 units of asset 1 (position_info total_cost 500,
total_quantity 10); selling all 10 units at price 60 (validated cost 600)
succeeds, yet the holdings entry survives with quantity 0 and the
position_info entry survives with total_cost 0 and total_quantity 0 — the
entries are present with value 0, not absent as the claim states. -/
theorem C1_sell_exhaust_concrete_keeps_entries :
    (handleTrade ⟨0, [(1, 10)], [(1, ⟨500, 10⟩)]⟩ .sell 1 10 60 600).isOk =
      true ∧
    (applyTrade ⟨0, [(1, 10)], [(1, ⟨500, 10⟩)]⟩ .sell 1 10 60 600).holdings =
      [(1, 0)] ∧
    (applyTrade ⟨0, [(1, 10)], [(1, ⟨500, 10⟩)]⟩ .sell 1 10 60
        600).position_info = [(1, ⟨0, 0⟩)] ∧
    dictLookup (applyTrade ⟨0, [(1, 10)], [(1, ⟨500, 10⟩)]⟩ .sell 1 10 60
        600).holdings 1 = some 0 := by
  refine ⟨?_, ?_, ?_, ?_⟩ <;>
    norm_num [applyTrade, handleTrade, ensureEntries, dictContains,
      dictLookup, dictSet, Except.isOk, Except.toBool]

/-- C1 amended: after a successful sell whose quantity exactly equals the
current holding (with position_info tracking that holding), the holdings
entry REMAINS PRESENT with quantity 0 and the position_info entry REMAINS
PRESENT with total_cost 0 and total_quantity 0; handle_trade and the
Portfolio serializers never delete zero entries (deletion happens only in
settlement). -/
theorem C1_sell_exhaust_keeps_zero_entries (st : PortfolioState)
    (aid : AssetId) (q c price cost : ℚ)
    (hq : dictLookup st.holdings aid = some q) (hqpos : 0 < q)
    (hpi : dictLookup st.position_info aid = some ⟨c, q⟩) :
    ∃ st', handleTrade st .sell aid q price cost = Except.ok st' ∧
      dictLookup st'.holdings aid = some 0 ∧
      dictLookup st'.position_info aid = some ⟨0, 0⟩ := by
  have hens : ensureEntries st aid = st := by
    unfold ensureEntries dictContains
    simp [hq, hpi]
  have hq0 : q ≠ 0 := ne_of_gt hqpos
  unfold handleTrade
  simp only [hens, hq, hpi, Option.getD_some]
  rw [if_neg (lt_irrefl q)]
  refine ⟨_, rfl, ?_, ?_⟩
  · simp only [dictLookup_dictSet_self]
    rw [sub_self]
  · simp only [dictLookup_dictSet_self]
    rw [if_pos hqpos]
    have : c - c * (q / q) = 0 := by
      rw [div_self hq0, mul_one, sub_self]
    simp [this, sub_self]

/-- C1 amended, witness at a concrete input. -/
theorem C1_sell_exhaust_keeps_zero_entries_witness :
    ∃ st', handleTrade ⟨0, [(1, 10)], [(1, ⟨500, 10⟩)]⟩ .sell 1 10 60 600 =
        Except.ok st' ∧
      dictLookup st'.holdings 1 = some 0 ∧
      dictLookup st'.position_info 1 = some ⟨0, 0⟩ :=
  C1_sell_exhaust_keeps_zero_entries ⟨0, [(1, 10)], [(1, ⟨500, 10⟩)]⟩ 1
    10 500 60 600 (by decide) (by decide) (by decide)

/-- Every quantity stored in the holdings map is nonnegative. -/
def HoldingsNonneg (st : PortfolioState) : Prop :=
  ∀ k q, dictLookup st.holdings k = some q → 0 ≤ q

/-- One validated trade request, as handle_trade receives it. -/
structure TradeOp where
  tt : TradeType
  aid : AssetId
  quantity : ℚ
  price : ℚ
  cost : ℚ
deriving Repr, DecidableEq

def applyTradeOp (st : PortfolioState) (op : TradeOp) : PortfolioState :=
  applyTrade st op.tt op.aid op.quantity op.price op.cost

theorem applyTradeOp_holdingsNonneg (st : PortfolioState) (op : TradeOp)
    (hqty : 0 < op.quantity) (h : HoldingsNonneg st) :
    HoldingsNonneg (applyTradeOp st op) := by
  obtain ⟨tt, aid, quantity, price, cost⟩ := op
  have hens := ensureEntries_holdingsNonneg st aid h
  have hbase : 0 ≤ (dictLookup st.holdings aid).getD 0 := by
    cases hl : dictLookup st.holdings aid with
    | none => simp
    | some v => simpa using h aid v hl
  unfold applyTradeOp applyTrade handleTrade
  cases tt with
  | buy =>
      by_cases hc : (ensureEntries st aid).cash < cost
      · simp only [hc, if_pos]
        exact h
      · simp only [hc, if_neg, not_false_iff]
        intro k v hk
        simp only at hk
        by_cases hik : aid = k
        · subst hik
          rw [dictLookup_dictSet_self] at hk
          cases hk
          have := (dictLookup_ensureEntries_holdings st aid)
          rw [this, Option.getD_some]
          positivity
        · rw [dictLookup_dictSet_ne _ _ _ _ hik] at hk
          exact hens k v hk
  | sell =>
      by_cases hs :
          ((dictLookup (ensureEntries st aid).holdings aid).getD 0 : ℚ) <
            quantity
      · simp only [hs, if_pos]
        exact h
      · simp only [hs, if_neg, not_false_iff]
        intro k v hk
        simp only at hk
        by_cases hik : aid = k
        · subst hik
          rw [dictLookup_dictSet_self] at hk
          cases hk
          rw [not_lt] at hs
          exact sub_nonneg.mpr hs
        · rw [dictLookup_dictSet_ne _ _ _ _ hik] at hk
          exact hens k v hk

/-- C7: (a) a sell whose quantity exceeds the current holding is rejected
with InsufficientHoldings and the portfolio state is completely unchanged;
(b) consequently, starting from any state with nonnegative holdings, no
sequence of validated trades (validated quantity is strictly positive) can
ever make a holdings entry negative. -/
theorem C7_oversell_rejected_holdings_nonneg :
    (∀ (st : PortfolioState) (aid : AssetId) (quantity price cost : ℚ),
        (dictLookup st.holdings aid).getD 0 < quantity →
        handleTrade st .sell aid quantity price cost =
          Except.error "Insufficient holdings" ∧
        applyTrade st .sell aid quantity price cost = st) ∧
    (∀ (ops : List TradeOp) (st : PortfolioState),
        (∀ op ∈ ops, 0 < op.quantity) → HoldingsNonneg st →
        HoldingsNonneg (ops.foldl applyTradeOp st)) := by
  constructor
  · intro st aid quantity price cost hlt
    have hh : dictLookup (ensureEntries st aid).holdings aid =
        some ((dictLookup st.holdings aid).getD 0) :=
      dictLookup_ensureEntries_holdings st aid
    have herr : handleTrade st .sell aid quantity price cost =
        Except.error "Insufficient holdings" := by
      unfold handleTrade
      simp only [hh, Option.getD_some]
      rw [if_pos hlt]
    refine ⟨herr, ?_⟩
    unfold applyTrade
    rw [herr]
  · intro ops
    induction ops with
    | nil => intro st _ h; simpa using h
    | cons hd tl ih =>
        intro st hv h
        simp only [List.foldl_cons]
        exact ih (applyTradeOp st hd)
          (fun op hop => hv op (List.mem_cons_of_mem hd hop))
          (applyTradeOp_holdingsNonneg st hd (hv hd (List.mem_cons_self hd tl)) h)

/-- C7 witness: the rejection branch at a concrete oversell, and the
nonnegativity invariant after a concrete buy/sell sequence. -/
theorem C7_oversell_rejected_holdings_nonneg_witness :
    applyTrade ⟨100, [(1, 2)], [(1, ⟨4, 2⟩)]⟩ .sell 1 5 10 50 =
      ⟨100, [(1, 2)], [(1, ⟨4, 2⟩)]⟩ ∧
    HoldingsNonneg
      (([⟨.buy, 1, 5, 10, 50⟩, ⟨.sell, 1, 3, 12, 36⟩] : List TradeOp).foldl
        applyTradeOp ⟨1000, [], []⟩) :=
  ⟨(C7_oversell_rejected_holdings_nonneg.1 ⟨100, [(1, 2)], [(1, ⟨4, 2⟩)]⟩ 1
      5 10 50 (by decide)).2,
   C7_oversell_rejected_holdings_nonneg.2
     [⟨.buy, 1, 5, 10, 50⟩, ⟨.sell, 1, 3, 12, 36⟩] ⟨1000, [], []⟩
     (by intro op hop; fin_cases hop <;> norm_num)
     (by intro k q hk; simp [dictLookup] at hk)⟩

/-- One validated trade on a single fixed asset. -/
inductive VOp
  | buy (quantity price cost : ℚ)
  | sell (quantity price cost : ℚ)
deriving Repr, DecidableEq

/-- Quantity currently held (0 when the entry is absent). -/
def heldOf (st : PortfolioState) (aid : AssetId) : ℚ :=
  (dictLookup st.holdings aid).getD 0

/-- The position_info entry (0-valued when absent). -/
def piOf (st : PortfolioState) (aid : AssetId) : PosInfo :=
  (dictLookup st.position_info aid).getD ⟨0, 0⟩

/-- Ghost cost of a list of open lots (price, open quantity). -/
def lotsCost (L : List (ℚ × ℚ)) : ℚ := (L.map fun l => l.1 * l.2).sum

/-- Ghost open quantity of a list of open lots. -/
def lotsQty (L : List (ℚ × ℚ)) : ℚ := (L.map fun l => l.2).sum

/-- Modelled from the spec: the volume-weighted average cost of the
currently open shares. A buy opens a new lot; a sell strips every open lot
proportionally (never FIFO/LIFO), scaling each open quantity by
`1 - quantity / total open quantity`. -/
def specLotsStep (L : List (ℚ × ℚ)) (op : VOp) : List (ℚ × ℚ) :=
  match op with
  | .buy q p _ => L ++ [(p, q)]
  | .sell s _ _ => L.map fun l => (l.1, l.2 * (1 - s / lotsQty L))

/-- Run one trade through handle_trade and advance the ghost lots exactly
when the trade is accepted. -/
def vwapStep (aid : AssetId) (p : PortfolioState × List (ℚ × ℚ))
    (op : VOp) : PortfolioState × List (ℚ × ℚ) :=
  match op with
  | .buy q pr c =>
      match handleTrade p.1 .buy aid q pr c with
      | .ok st' => (st', specLotsStep p.2 (.buy q pr c))
      | .error _ => p
  | .sell q pr c =>
      match handleTrade p.1 .sell aid q pr c with
      | .ok st' => (st', specLotsStep p.2 (.sell q pr c))
      | .error _ => p

/-- The validator guarantees a strictly positive quantity, and the trade
handler receives cost = quantity × price for buys. -/
def VOpValid : VOp → Prop
  | .buy q p c => 0 < q ∧ c = q * p
  | .sell q _ _ => 0 < q

/-- The coupling between the ledger accumulator and the ghost open lots. -/
def VwapInv (aid : AssetId) (p : PortfolioState × List (ℚ × ℚ)) : Prop :=
  heldOf p.1 aid = lotsQty p.2 ∧
  (piOf p.1 aid).total_quantity = lotsQty p.2 ∧
  (piOf p.1 aid).total_cost = lotsCost p.2

theorem lotsQty_scale (L : List (ℚ × ℚ)) (f : ℚ) :
    lotsQty (L.map fun l => (l.1, l.2 * f)) = lotsQty L * f := by
  induction L with
  | nil => simp [lotsQty]
  | cons hd tl ih =>
      simp only [lotsQty, List.map_cons, List.map_map, List.sum_cons] at *
      rw [ih]
      ring

theorem lotsCost_scale (L : List (ℚ × ℚ)) (f : ℚ) :
    lotsCost (L.map fun l => (l.1, l.2 * f)) = lotsCost L * f := by
  induction L with
  | nil => simp [lotsCost]
  | cons hd tl ih =>
      simp only [lotsCost, List.map_cons, List.map_map, List.sum_cons] at *
      rw [ih]
      ring

theorem lotsQty_append_one (L : List (ℚ × ℚ)) (p q : ℚ) :
    lotsQty (L ++ [(p, q)]) = lotsQty L + q := by
  simp [lotsQty]

theorem lotsCost_append_one (L : List (ℚ × ℚ)) (p q : ℚ) :
    lotsCost (L ++ [(p, q)]) = lotsCost L + p * q := by
  simp [lotsCost]

theorem heldOf_ensureEntries (st : PortfolioState) (aid : AssetId) :
    heldOf (ensureEntries st aid) aid = heldOf st aid := by
  unfold heldOf
  rw [dictLookup_ensureEntries_holdings]
  rfl

theorem piOf_ensureEntries (st : PortfolioState) (aid : AssetId) :
    piOf (ensureEntries st aid) aid = piOf st aid := by
  unfold piOf
  rw [dictLookup_ensureEntries_position]
  rfl

theorem handleTrade_buy_eq (st : PortfolioState) (aid : AssetId)
    (q pr c : ℚ) :
    handleTrade st .buy aid q pr c =
      if (ensureEntries st aid).cash < c then
        Except.error "Insufficient funds"
      else
        Except.ok
          { cash := (ensureEntries st aid).cash - c
            holdings :=
              dictSet (ensureEntries st aid).holdings aid (heldOf st aid + q)
            position_info :=
              dictSet (ensureEntries st aid).position_info aid
                ⟨(piOf st aid).total_cost + c,
                 (piOf st aid).total_quantity + q⟩ } := by
  simp only [handleTrade]
  rw [dictLookup_ensureEntries_holdings, dictLookup_ensureEntries_position]
  simp only [Option.getD_some]
  rfl

theorem handleTrade_sell_eq (st : PortfolioState) (aid : AssetId)
    (q pr c : ℚ) :
    handleTrade st .sell aid q pr c =
      if heldOf st aid < q then Except.error "Insufficient holdings"
      else
        Except.ok
          { cash := (ensureEntries st aid).cash + c
            holdings :=
              dictSet (ensureEntries st aid).holdings aid (heldOf st aid - q)
            position_info :=
              dictSet (ensureEntries st aid).position_info aid
                (if 0 < (piOf st aid).total_quantity then
                  ⟨(piOf st aid).total_cost -
                     (piOf st aid).total_cost *
                       (q / (piOf st aid).total_quantity),
                   (piOf st aid).total_quantity - q⟩
                else piOf st aid) } := by
  simp only [handleTrade]
  rw [dictLookup_ensureEntries_holdings, dictLookup_ensureEntries_position]
  simp only [Option.getD_some]
  rfl

theorem heldOf_mk (cash : ℚ) (hm : List (AssetId × ℚ))
    (pm : List (AssetId × PosInfo)) (aid : AssetId) (v : ℚ) :
    heldOf ⟨cash, dictSet hm aid v, pm⟩ aid = v := by
  unfold heldOf
  show (dictLookup (dictSet hm aid v) aid).getD 0 = v
  rw [dictLookup_dictSet_self]
  rfl

theorem piOf_mk (cash : ℚ) (hm : List (AssetId × ℚ))
    (pm : List (AssetId × PosInfo)) (aid : AssetId) (v : PosInfo) :
    piOf ⟨cash, hm, dictSet pm aid v⟩ aid = v := by
  unfold piOf
  show (dictLookup (dictSet pm aid v) aid).getD ⟨0, 0⟩ = v
  rw [dictLookup_dictSet_self]
  rfl

theorem vwapStep_inv (aid : AssetId) (p : PortfolioState × List (ℚ × ℚ))
    (op : VOp) (hop : VOpValid op) (h : VwapInv aid p) :
    VwapInv aid (vwapStep aid p op) := by
  obtain ⟨st, L⟩ := p
  obtain ⟨h1, h2, h3⟩ := h
  dsimp only at h1 h2 h3
  cases op with
  | buy q pr c =>
      obtain ⟨hq, hc⟩ := hop
      simp only [vwapStep]
      rw [handleTrade_buy_eq]
      by_cases hcash : (ensureEntries st aid).cash < c
      · rw [if_pos hcash]
        exact ⟨h1, h2, h3⟩
      · rw [if_neg hcash]
        refine ⟨?_, ?_, ?_⟩
        · show heldOf ⟨(ensureEntries st aid).cash - c,
              dictSet (ensureEntries st aid).holdings aid (heldOf st aid + q),
              dictSet (ensureEntries st aid).position_info aid
                ⟨(piOf st aid).total_cost + c,
                 (piOf st aid).total_quantity + q⟩⟩ aid =
            lotsQty (L ++ [(pr, q)])
          rw [heldOf_mk, lotsQty_append_one, h1]
        · show (piOf ⟨(ensureEntries st aid).cash - c,
              dictSet (ensureEntries st aid).holdings aid (heldOf st aid + q),
              dictSet (ensureEntries st aid).position_info aid
                ⟨(piOf st aid).total_cost + c,
                 (piOf st aid).total_quantity + q⟩⟩ aid).total_quantity =
            lotsQty (L ++ [(pr, q)])
          rw [piOf_mk, lotsQty_append_one]
          dsimp only
          rw [h2]
        · show (piOf ⟨(ensureEntries st aid).cash - c,
              dictSet (ensureEntries st aid).holdings aid (heldOf st aid + q),
              dictSet (ensureEntries st aid).position_info aid
                ⟨(piOf st aid).total_cost + c,
                 (piOf st aid).total_quantity + q⟩⟩ aid).total_cost =
            lotsCost (L ++ [(pr, q)])
          rw [piOf_mk, lotsCost_append_one]
          dsimp only
          rw [h3, hc]
          ring
  | sell s pr c =>
      have hspos : (0 : ℚ) < s := hop
      simp only [vwapStep]
      rw [handleTrade_sell_eq]
      by_cases hheld : heldOf st aid < s
      · rw [if_pos hheld]
        exact ⟨h1, h2, h3⟩
      · rw [if_neg hheld]
        have hsle : s ≤ heldOf st aid := not_lt.mp hheld
        have hQpos : 0 < lotsQty L := by
          rw [← h1]
          exact lt_of_lt_of_le hspos hsle
        have hQne : lotsQty L ≠ 0 := ne_of_gt hQpos
        have hpiQpos : 0 < (piOf st aid).total_quantity := by
          rw [h2]
          exact hQpos
        have hscaleQ : lotsQty L * (1 - s / lotsQty L) = lotsQty L - s := by
          field_simp
        refine ⟨?_, ?_, ?_⟩
        · show heldOf ⟨(ensureEntries st aid).cash + c,
              dictSet (ensureEntries st aid).holdings aid (heldOf st aid - s),
              dictSet (ensureEntries st aid).position_info aid
                (if 0 < (piOf st aid).total_quantity then
                  ⟨(piOf st aid).total_cost -
                     (piOf st aid).total_cost *
                       (s / (piOf st aid).total_quantity),
                   (piOf st aid).total_quantity - s⟩
                else piOf st aid)⟩ aid =
            lotsQty (L.map fun l => (l.1, l.2 * (1 - s / lotsQty L)))
          rw [heldOf_mk, lotsQty_scale, hscaleQ, h1]
        · show (piOf ⟨(ensureEntries st aid).cash + c,
              dictSet (ensureEntries st aid).holdings aid (heldOf st aid - s),
              dictSet (ensureEntries st aid).position_info aid
                (if 0 < (piOf st aid).total_quantity then
                  ⟨(piOf st aid).total_cost -
                     (piOf st aid).total_cost *
                       (s / (piOf st aid).total_quantity),
                   (piOf st aid).total_quantity - s⟩
                else piOf st aid)⟩ aid).total_quantity =
            lotsQty (L.map fun l => (l.1, l.2 * (1 - s / lotsQty L)))
          rw [piOf_mk, if_pos hpiQpos, lotsQty_scale, hscaleQ]
          dsimp only
          rw [h2]
        · show (piOf ⟨(ensureEntries st aid).cash + c,
              dictSet (ensureEntries st aid).holdings aid (heldOf st aid - s),
              dictSet (ensureEntries st aid).position_info aid
                (if 0 < (piOf st aid).total_quantity then
                  ⟨(piOf st aid).total_cost -
                     (piOf st aid).total_cost *
                       (s / (piOf st aid).total_quantity),
                   (piOf st aid).total_quantity - s⟩
                else piOf st aid)⟩ aid).total_cost =
            lotsCost (L.map fun l => (l.1, l.2 * (1 - s / lotsQty L)))
          rw [piOf_mk, if_pos hpiQpos, lotsCost_scale]
          dsimp only
          rw [h2, h3]
          ring

theorem vwapFold_inv (aid : AssetId) :
    ∀ ops : List VOp, (∀ op ∈ ops, VOpValid op) →
      ∀ p, VwapInv aid p → VwapInv aid (ops.foldl (vwapStep aid) p) := by
  intro ops
  induction ops with
  | nil =>
      intro _ p h
      simpa using h
  | cons hd tl ih =>
      intro hv p h
      simp only [List.foldl_cons]
      exact ih (fun op hop => hv op (List.mem_cons_of_mem hd hop)) _
        (vwapStep_inv aid p hd (hv hd (List.mem_cons_self hd tl)) h)

/-- C8: for any sequence of validated buys/sells on a single asset
(validated quantities strictly positive, buy cost = quantity × price),
starting from a state coupled to a list of ghost open lots, the
position_info accumulator always equals the totals of the ghost open-lot
model in which a sell strips cost proportionally from every open lot
(never FIFO/LIFO). In particular, whenever the net open quantity is
strictly positive, total_cost / total_quantity equals the volume-weighted
average purchase price of the currently open shares. -/
theorem C8_vwap_invariant (aid : AssetId) (ops : List VOp)
    (st : PortfolioState) (L : List (ℚ × ℚ))
    (hv : ∀ op ∈ ops, VOpValid op) (h : VwapInv aid (st, L)) :
    VwapInv aid (ops.foldl (vwapStep aid) (st, L)) ∧
    (0 < lotsQty (ops.foldl (vwapStep aid) (st, L)).2 →
      (piOf (ops.foldl (vwapStep aid) (st, L)).1 aid).total_cost /
          (piOf (ops.foldl (vwapStep aid) (st, L)).1 aid).total_quantity =
        lotsCost (ops.foldl (vwapStep aid) (st, L)).2 /
          lotsQty (ops.foldl (vwapStep aid) (st, L)).2) := by
  have hinv : VwapInv aid (ops.foldl (vwapStep aid) (st, L)) :=
    vwapFold_inv aid ops hv (st, L) h
  refine ⟨hinv, fun hpos => ?_⟩
  rw [hinv.2.1, hinv.2.2]

/-- C8 witness: buy 10 at 50 (cost 500), sell 4 at 60; the accumulator
equals the ghost model and the average cost of the remaining 6 shares
stays 50. -/
theorem C8_vwap_invariant_witness :
    VwapInv 1 (([VOp.buy 10 50 500, VOp.sell 4 60 240]).foldl (vwapStep 1)
      (⟨1000, [], []⟩, [])) ∧
    (0 < lotsQty (([VOp.buy 10 50 500, VOp.sell 4 60 240]).foldl (vwapStep 1)
        (⟨1000, [], []⟩, [])).2 →
      (piOf (([VOp.buy 10 50 500, VOp.sell 4 60 240]).foldl (vwapStep 1)
            (⟨1000, [], []⟩, [])).1 1).total_cost /
          (piOf (([VOp.buy 10 50 500, VOp.sell 4 60 240]).foldl (vwapStep 1)
            (⟨1000, [], []⟩, [])).1 1).total_quantity =
        lotsCost (([VOp.buy 10 50 500, VOp.sell 4 60 240]).foldl (vwapStep 1)
            (⟨1000, [], []⟩, [])).2 /
          lotsQty (([VOp.buy 10 50 500, VOp.sell 4 60 240]).foldl (vwapStep 1)
            (⟨1000, [], []⟩, [])).2) :=
  C8_vwap_invariant 1 [VOp.buy 10 50 500, VOp.sell 4 60 240] ⟨1000, [], []⟩ []
    (by intro op hop; fin_cases hop <;> norm_num [VOpValid])
    (by refine ⟨?_, ?_, ?_⟩ <;>
      norm_num [VwapInv, heldOf, piOf, dictLookup, lotsQty, lotsCost])

/-- Banker's rounding of a rational to an integer: the decimal module's
ROUND_HALF_EVEN used by src/validators.py. -/
def roundHalfEvenInt (x : ℚ) : ℤ :=
  if x - Int.floor x < 1 / 2 then Int.floor x
  else if 1 / 2 < x - Int.floor x then Int.floor x + 1
  else if Int.floor x % 2 = 0 then Int.floor x else Int.floor x + 1

/-- Decimal.quantize to 8 decimal places with ROUND_HALF_EVEN
(src/validators.py, the 0.00000001 quantizer). -/
def quantize8 (q : ℚ) : ℚ := (roundHalfEvenInt (q * 10 ^ 8) : ℚ) / 10 ^ 8

/-- src/validators.py TradeValidator.validate_quantity on an exact decimal
input (every rational is finite, so the NaN/Infinity branch never fires in
the embedding). Branches in source order: negative, zero (unless allowed),
below MIN_QUANTITY 1e-8, above MAX_QUANTITY 1e9, then quantize to 8
decimal places half-to-even. Out-of-range values are REJECTED, never
clamped. -/
def validateQuantity (q : ℚ) (allowZero : Bool) : Except String ℚ :=
  if q < 0 then Except.error "Quantity cannot be negative"
  else if q = 0 ∧ allowZero = false then
    Except.error "Quantity must be greater than zero"
  else if 0 < q ∧ q < 1 / 10 ^ 8 then
    Except.error "Quantity must be at least the minimum"
  else if 10 ^ 9 < q then
    Except.error "Quantity cannot exceed the maximum"
  else Except.ok (quantize8 q)

/-- Modelled from the spec for comparison: clamp the value into
[1e-8, 1e9] and round to 8 decimal places half-to-even. -/
def specClampQuantity (q : ℚ) : ℚ :=
  quantize8 (min (max q (1 / 10 ^ 8)) (10 ^ 9))

theorem roundHalfEvenInt_close (x : ℚ) :
    |(roundHalfEvenInt x : ℚ) - x| ≤ 1 / 2 := by
  have hf : (Int.floor x : ℚ) ≤ x := Int.floor_le x
  have hc : x < (Int.floor x : ℚ) + 1 := Int.lt_floor_add_one x
  unfold roundHalfEvenInt
  by_cases hlo : x - Int.floor x < 1 / 2
  · rw [if_pos hlo, abs_le]
    constructor <;> linarith
  · rw [if_neg hlo]
    by_cases hhi : 1 / 2 < x - Int.floor x
    · rw [if_pos hhi]
      push_cast
      rw [abs_le]
      constructor <;> linarith
    · rw [if_neg hhi]
      by_cases he : Int.floor x % 2 = 0
      · rw [if_pos he, abs_le]
        constructor <;> linarith
      · rw [if_neg he]
        push_cast
        rw [abs_le]
        constructor <;> linarith

theorem roundHalfEvenInt_tie_even (x : ℚ)
    (ht : x - Int.floor x = 1 / 2) : roundHalfEvenInt x % 2 = 0 := by
  unfold roundHalfEvenInt
  rw [ht]
  rw [if_neg (lt_irrefl (1 / 2 : ℚ)), if_neg (lt_irrefl (1 / 2 : ℚ))]
  by_cases he : Int.floor x % 2 = 0
  · rw [if_pos he]
    exact he
  · rw [if_neg he]
    omega

theorem quantize8_close (q : ℚ) : |quantize8 q - q| ≤ 1 / (2 * 10 ^ 8) := by
  have h := roundHalfEvenInt_close (q * 10 ^ 8)
  have heq : quantize8 q - q =
      ((roundHalfEvenInt (q * 10 ^ 8) : ℚ) - q * 10 ^ 8) / 10 ^ 8 := by
    unfold quantize8
    field_simp
    ring
  rw [heq, abs_div, abs_of_pos (show (0 : ℚ) < 10 ^ 8 by norm_num)]
  rw [show (1 : ℚ) / (2 * 10 ^ 8) = (1 / 2) / 10 ^ 8 by norm_num]
  rw [div_le_div_iff_of_pos_right (show (0 : ℚ) < 10 ^ 8 by norm_num)]
  exact h

/-- C4 counterexample: finite positive quantities outside [1e-8, 1e9] are
rejected with a ValidationError, not clamped; the spec-modelled clamping
behaviour would have returned the boundary value instead. -/
theorem C4_reject_not_clamp_concrete :
    validateQuantity (2 * 10 ^ 9) false =
      Except.error "Quantity cannot exceed the maximum" ∧
    specClampQuantity (2 * 10 ^ 9) = 10 ^ 9 ∧
    validateQuantity (1 / 10 ^ 9) false =
      Except.error "Quantity must be at least the minimum" ∧
    specClampQuantity (1 / 10 ^ 9) = 1 / 10 ^ 8 := by
  refine ⟨?_, ?_, ?_, ?_⟩ <;>
    norm_num [validateQuantity, specClampQuantity, quantize8,
      roundHalfEvenInt]

/-- C4 amended: validate_quantity REJECTS finite positive inputs outside
[1e-8, 1e9] (it does not clamp); it rejects negative inputs and zero
unless zero is allowed; every accepted quantity is rounded to 8 decimal
places with round-half-to-even (within 5e-9 of the input, ties to the even
multiple of 1e-8). -/
theorem C4_validate_quantity_amended (q : ℚ) (az : Bool) :
    (q < 0 →
      validateQuantity q az = Except.error "Quantity cannot be negative") ∧
    (q = 0 → az = false →
      validateQuantity q az =
        Except.error "Quantity must be greater than zero") ∧
    (0 < q → q < 1 / 10 ^ 8 →
      validateQuantity q az =
        Except.error "Quantity must be at least the minimum") ∧
    (10 ^ 9 < q →
      validateQuantity q az =
        Except.error "Quantity cannot exceed the maximum") ∧
    (1 / 10 ^ 8 ≤ q → q ≤ 10 ^ 9 →
      validateQuantity q az = Except.ok (quantize8 q)) ∧
    quantize8 q * 10 ^ 8 = (roundHalfEvenInt (q * 10 ^ 8) : ℚ) ∧
    |quantize8 q - q| ≤ 1 / (2 * 10 ^ 8) ∧
    (q * 10 ^ 8 - Int.floor (q * 10 ^ 8) = 1 / 2 →
      roundHalfEvenInt (q * 10 ^ 8) % 2 = 0) := by
  refine ⟨?_, ?_, ?_, ?_, ?_, ?_, quantize8_close q,
    roundHalfEvenInt_tie_even (q * 10 ^ 8)⟩
  · intro h
    unfold validateQuantity
    rw [if_pos h]
  · intro h0 ha
    unfold validateQuantity
    rw [if_neg (by rw [h0]; exact lt_irrefl 0), if_pos ⟨h0, ha⟩]
  · intro hp hlt
    unfold validateQuantity
    rw [if_neg (not_lt.mpr hp.le),
      if_neg (fun hc => absurd hc.1 (ne_of_gt hp)), if_pos ⟨hp, hlt⟩]
  · intro hbig
    have hq0 : (0 : ℚ) < q := lt_trans (by norm_num) hbig
    have hge : (1 : ℚ) / 10 ^ 8 ≤ q :=
      le_trans (by norm_num) hbig.le
    unfold validateQuantity
    rw [if_neg (not_lt.mpr hq0.le),
      if_neg (fun hc => absurd hc.1 (ne_of_gt hq0)),
      if_neg (fun hc => absurd hc.2 (not_lt.mpr hge)), if_pos hbig]
  · intro hlo hhi
    have hq0 : (0 : ℚ) < q := lt_of_lt_of_le (by norm_num) hlo
    unfold validateQuantity
    rw [if_neg (not_lt.mpr hq0.le),
      if_neg (fun hc => absurd hc.1 (ne_of_gt hq0)),
      if_neg (fun hc => absurd hc.2 (not_lt.mpr hlo)),
      if_neg (not_lt.mpr hhi)]
  · unfold quantize8
    field_simp

/-- C4 amended, witness: each rejection branch, acceptance with exact
rounding, and the rounding error bound, at concrete inputs. -/
theorem C4_validate_quantity_amended_witness :
    validateQuantity (-1) false =
      Except.error "Quantity cannot be negative" ∧
    validateQuantity 0 false =
      Except.error "Quantity must be greater than zero" ∧
    validateQuantity (1 / 10 ^ 9) false =
      Except.error "Quantity must be at least the minimum" ∧
    validateQuantity (2 * 10 ^ 9) true =
      Except.error "Quantity cannot exceed the maximum" ∧
    validateQuantity (1 / 8) false = Except.ok (quantize8 (1 / 8)) ∧
    |quantize8 (1 / 8) - 1 / 8| ≤ 1 / (2 * 10 ^ 8) :=
  ⟨(C4_validate_quantity_amended (-1) false).1 (by norm_num),
   (C4_validate_quantity_amended 0 false).2.1 rfl rfl,
   (C4_validate_quantity_amended (1 / 10 ^ 9) false).2.2.1 (by norm_num)
     (by norm_num),
   (C4_validate_quantity_amended (2 * 10 ^ 9) true).2.2.2.1 (by norm_num),
   (C4_validate_quantity_amended (1 / 8) false).2.2.2.2.1 (by norm_num)
     (by norm_num),
   (C4_validate_quantity_amended (1 / 8) false).2.2.2.2.2.2.1⟩

/-- Per-symbol state of src/price_client.py FallbackPriceService.
AssetManager.create_new_assets registers a drift value in this record,
but update_prices never reads it. -/
structure FallbackAsset where
  price : ℚ
  volatility : ℚ
  drift : ℚ
deriving Repr, DecidableEq

/-- src/price_client.py FallbackPriceService.update_prices, non-skipped
body for one symbol: change_percent is a draw from N(0, volatility),
written here as volatility · z with z a standard normal draw; the price is
multiplied by (1 + change_percent) and floored at 0.01. This is an
arithmetic random walk, not an exponential update, and it uses no drift. -/
def fallbackNewPrice (price volatility z : ℚ) : ℚ :=
  max (price * (1 + volatility * z)) (1 / 100)

def fallbackTick (a : FallbackAsset) (z : ℚ) : FallbackAsset :=
  { a with price := fallbackNewPrice a.price a.volatility z }

/-- src/price_service.py PriceService._update_prices log return (line 145):
-0.5 · sigma² · dt + sigma · sqrt(dt) · z with dt = 1 (so sqrt dt = 1).
No drift term appears; the comment in the source fixes mu = 0. -/
def psLogReturn (volatility z : ℚ) : ℚ :=
  -(1 / 2) * volatility ^ 2 * 1 + volatility * 1 * z

/-- Modelled from the spec: log_return =
(drift − 0.5·volatility²)·dt + volatility·√dt·z with dt = 1. -/
def specLogReturn (drift volatility z : ℚ) : ℚ :=
  (drift - 1 / 2 * volatility ^ 2) * 1 + volatility * 1 * z

/-- src/price_service.py line 152: the new price is floored at 0.0 (not at
a positive epsilon). `factor` stands for exp(log_return). -/
def psNewPrice (price factor : ℚ) : ℚ := max (price * factor) 0

/-- The worthlessness test shared by AssetManager.get_worthless_assets and
app.update_prices: current price strictly below 0.01. -/
def isWorthlessPrice (p : ℚ) : Bool := decide (p < 1 / 100)

/-- C3: the code ignores the per-asset drift. The pricing-service log
return equals the spec formula only with drift forced to 0; at drift 1/100
and volatility 1/10 the code computes -1/200 where the spec formula gives
1/200; and the fallback tick gives identical prices for assets that differ
only in drift. -/
theorem C3_drift_ignored_in_price_updates :
    psLogReturn (1 / 10) 0 = -(1 / 200) ∧
    specLogReturn (1 / 100) (1 / 10) 0 = 1 / 200 ∧
    (∀ volatility z : ℚ,
      psLogReturn volatility z = specLogReturn 0 volatility z) ∧
    (∀ p v d1 d2 z : ℚ,
      (fallbackTick ⟨p, v, d1⟩ z).price = (fallbackTick ⟨p, v, d2⟩ z).price) := by
  refine ⟨by norm_num [psLogReturn], by norm_num [specLogReturn], ?_, ?_⟩
  · intro volatility z
    unfold psLogReturn specLogReturn
    ring
  · intro p v d1 d2 z
    rfl

/-- C5 counterexample: the pricing-service tick floors at 0.0, not at a
positive epsilon: a price of exactly zero stays exactly zero through the
update, contradicting the claim that the stored price is never exactly
zero. -/
theorem C5_zero_price_fixed_point : psNewPrice 0 1 = 0 := by
  norm_num [psNewPrice]

/-- C5 amended: a strictly positive price stays strictly positive through
the pricing-service tick (because the multiplicative factor exp(log
return) is strictly positive), and the fallback tick floors every output
at the positive epsilon 0.01; but the pricing-service floor itself is 0.0,
so a zero price is a fixed point rather than being lifted to a positive
epsilon. -/
theorem C5_tick_preserves_positivity (price factor p0 volatility z : ℚ)
    (hp : 0 < price) (hf : 0 < factor) :
    0 < psNewPrice price factor ∧
    1 / 100 ≤ fallbackNewPrice p0 volatility z := by
  constructor
  · unfold psNewPrice
    exact lt_of_lt_of_le (mul_pos hp hf) (le_max_left _ _)
  · unfold fallbackNewPrice
    exact le_max_right _ _

/-- C5 amended, witness at concrete inputs. -/
theorem C5_tick_preserves_positivity_witness :
    0 < psNewPrice 2 3 ∧ 1 / 100 ≤ fallbackNewPrice 1 1 1 :=
  C5_tick_preserves_positivity 2 3 1 1 1 (by norm_num) (by norm_num)

/-- C10: every price written by a fallback tick is at least the 0.01
floor, while worthless detection requires a price strictly below 0.01, so
an asset whose current price was last written by the fallback engine can
never be detected as worthless. -/
theorem C10_fallback_price_never_worthless (price volatility z : ℚ) :
    isWorthlessPrice (fallbackNewPrice price volatility z) = false := by
  unfold isWorthlessPrice fallbackNewPrice
  simp only [decide_eq_false_iff_not, not_lt]
  exact le_max_right _ _

/-- Keyword parameters accepted by Asset.create_new_asset
(src/models.py line 287). -/
def createNewAssetParams : List String :=
  ["initial_price", "volatility", "drift", "minutes_to_expiry"]

/-- Keyword arguments supplied at the call site inside
AssetManager.create_new_assets (src/asset_manager.py lines 222-227). -/
def createNewAssetsCallKeywords : List String :=
  ["initial_price", "volatility", "minutes_to_expiry", "exclude_symbols"]

/-- Python accepts a keyword call exactly when every supplied keyword
names a declared parameter (create_new_asset has no **kwargs). -/
def keywordCallOk : Bool :=
  createNewAssetsCallKeywords.all (fun k => createNewAssetParams.contains k)

/-- AssetManager.create_new_assets: each loop iteration invokes
Asset.create_new_asset with the keywords above; a keyword that is not a
parameter raises TypeError before any asset is created. -/
def createNewAssets (count : ℕ) : Except String (List Unit) :=
  if keywordCallOk then Except.ok (List.replicate count ())
  else Except.error "TypeError: unexpected keyword argument exclude_symbols"

/-- AssetManager.maintain_asset_pool: when the active count is below the
configured minimum, create (min − active) new assets, else create none.
Returns how many assets were created. -/
def maintainAssetPool (activeCount minActive : ℕ) : Except String ℕ :=
  if activeCount < minActive then
    Except.map List.length (createNewAssets (minActive - activeCount))
  else Except.ok 0

/-- C2: evaluating the code at the failing input. With 0 active assets and
minimum 16, maintain_asset_pool raises TypeError instead of creating 16
assets: the call site passes the keyword exclude_symbols, which
Asset.create_new_asset does not accept. -/
theorem C2_maintain_pool_raises_type_error :
    maintainAssetPool 0 16 =
      Except.error "TypeError: unexpected keyword argument exclude_symbols" ∧
    keywordCallOk = false ∧
    createNewAssetParams.contains "exclude_symbols" = false := by
  refine ⟨?_, ?_, ?_⟩ <;> rfl

/-- src/models.py Asset, the fields the lifecycle sweep reads and writes.
Time is an integer timestamp. -/
structure MAsset where
  id : AssetId
  is_active : Bool
  expires_at : ℤ
  current_price : ℚ
  final_price : Option ℚ
deriving Repr, DecidableEq

/-- src/models.py Asset.expire: deactivate and set the final price
(defaulting to the current price). -/
def expireAsset (a : MAsset) (fp : Option ℚ) : MAsset :=
  { a with is_active := false, final_price := some (fp.getD a.current_price) }

/-- src/models.py Portfolio as the settlement sweep sees it. -/
structure MPortfolio where
  user_id : Nat
  cash : ℚ
  holdings : List (AssetId × ℚ)
  position_info : List (AssetId × PosInfo)
deriving Repr, DecidableEq

/-- src/models.py Settlement record. -/
structure SettlementRec where
  user_id : Nat
  asset_id : AssetId
  quantity : ℚ
  settlement_price : ℚ
  settlement_value : ℚ
deriving Repr, DecidableEq

/-- src/models.py Transaction record (settlement sweep writes
type=settlement). -/
structure TransactionRec where
  user_id : Nat
  asset_id : AssetId
  ttype : String
  quantity : ℚ
  price : ℚ
  total_cost : ℚ
deriving Repr, DecidableEq

/-- Python truthiness of asset.final_price in the guard
`if not asset.final_price` (src/asset_manager.py line 134): None and 0.0
are falsy, so the asset is skipped for both. -/
def finalPriceTruthy (a : MAsset) : Bool :=
  match a.final_price with
  | none => false
  | some v => decide (v ≠ 0)

/-- Inner body of AssetManager.settle_expired_positions for one
(asset, portfolio) pair (src/asset_manager.py lines 141-200): when the
portfolio holds a strictly positive quantity, credit cash with
quantity × final_price, delete the holdings and position_info entries, and
record one Settlement and one settlement Transaction. -/
def settlePortfolioForAsset (a : MAsset) (fp : ℚ) (p : MPortfolio) :
    MPortfolio × List SettlementRec × List TransactionRec :=
  match dictLookup p.holdings a.id with
  | some q =>
      if 0 < q then
        ({ p with cash := p.cash + q * fp
                  holdings := dictDelete p.holdings a.id
                  position_info := dictDelete p.position_info a.id },
         [⟨p.user_id, a.id, q, fp, q * fp⟩],
         [⟨p.user_id, a.id, "settlement", q, fp, q * fp⟩])
      else (p, [], [])
  | none => (p, [], [])

/-- AssetManager.settle_expired_positions: per asset, skip when
final_price is falsy (None or 0.0), otherwise run the inner body over
every portfolio, accumulating the records. -/
def settleExpiredPositions (assets : List MAsset)
    (portfolios : List MPortfolio) :
    List MPortfolio × List SettlementRec × List TransactionRec :=
  match assets with
  | [] => (portfolios, [], [])
  | a :: rest =>
      if finalPriceTruthy a then
        let fp := a.final_price.getD 0
        let step := portfolios.map (settlePortfolioForAsset a fp)
        let next := settleExpiredPositions rest (step.map fun t => t.1)
        (next.1,
         (step.map fun t => t.2.1).flatten ++ next.2.1,
         (step.map fun t => t.2.2).flatten ++ next.2.2)
      else settleExpiredPositions rest portfolios

theorem dictLookup_eq_none_of_not_mem {α : Type} (m : List (AssetId × α))
    (k : AssetId) (h : k ∉ m.map Prod.fst) : dictLookup m k = none := by
  induction m with
  | nil => rfl
  | cons hd tl ih =>
      obtain ⟨k0, v0⟩ := hd
      simp only [List.map_cons, List.mem_cons] at h
      push_neg at h
      unfold dictLookup
      rw [if_neg (fun he => h.1 he.symm)]
      exact ih h.2

theorem dictLookup_dictDelete_self {α : Type} (m : List (AssetId × α))
    (k : AssetId) (h : (m.map Prod.fst).Nodup) :
    dictLookup (dictDelete m k) k = none := by
  induction m with
  | nil => rfl
  | cons hd tl ih =>
      obtain ⟨k0, v0⟩ := hd
      simp only [List.map_cons, List.nodup_cons] at h
      by_cases hk : k0 = k
      · subst hk
        unfold dictDelete
        rw [if_pos rfl]
        exact dictLookup_eq_none_of_not_mem tl k0 h.1
      · unfold dictDelete
        rw [if_neg hk]
        show (if k0 = k then some v0 else dictLookup (dictDelete tl k) k) =
          none
        rw [if_neg hk]
        exact ih h.2

/-- C6 counterexample: an expired asset whose final price is exactly 0.0
is skipped entirely by settle_expired_positions because of the Python
truthiness guard: the holding portfolio receives no Settlement record, no
settlement Transaction, no cash credit, and keeps both map entries, even
though it holds a nonzero quantity. -/
theorem C6_zero_final_price_skips_settlement :
    settleExpiredPositions [⟨1, false, 0, 0, some 0⟩]
        [⟨7, 100, [(1, 5)], [(1, ⟨50, 5⟩)]⟩] =
      ([⟨7, 100, [(1, 5)], [(1, ⟨50, 5⟩)]⟩], [], []) ∧
    dictLookup ([((1 : AssetId), (5 : ℚ))]) 1 = some 5 := by
  constructor
  · rfl
  · rfl

/-- C6 amended: for every expired asset whose final_price is non-null and
nonzero, settle_expired_positions credits each portfolio holding a
strictly positive quantity with quantity × final_price, deletes both map
entries, and emits exactly one Settlement record and exactly one
settlement Transaction for the pair; assets with final_price None or 0.0
are skipped entirely. -/
theorem C6_settlement_per_pair (a : MAsset) (fp : ℚ)
    (ps : List MPortfolio) (p : MPortfolio) (q : ℚ)
    (hfp : a.final_price = some fp) (hne : fp ≠ 0)
    (hq : dictLookup p.holdings a.id = some q) (hqpos : 0 < q)
    (hwf1 : (p.holdings.map Prod.fst).Nodup)
    (hwf2 : (p.position_info.map Prod.fst).Nodup) :
    (settlePortfolioForAsset a fp p).1.cash = p.cash + q * fp ∧
    dictLookup (settlePortfolioForAsset a fp p).1.holdings a.id = none ∧
    dictLookup (settlePortfolioForAsset a fp p).1.position_info a.id =
      none ∧
    (settlePortfolioForAsset a fp p).2.1 =
      [⟨p.user_id, a.id, q, fp, q * fp⟩] ∧
    (settlePortfolioForAsset a fp p).2.2 =
      [⟨p.user_id, a.id, "settlement", q, fp, q * fp⟩] ∧
    settleExpiredPositions [a] ps =
      (ps.map fun r => (settlePortfolioForAsset a fp r).1,
       (ps.map fun r => (settlePortfolioForAsset a fp r).2.1).flatten,
       (ps.map fun r => (settlePortfolioForAsset a fp r).2.2).flatten) := by
  have htr : finalPriceTruthy a = true := by
    unfold finalPriceTruthy
    rw [hfp]
    simpa using hne
  have hgetD : a.final_price.getD 0 = fp := by
    rw [hfp]
    rfl
  have hsp : settlePortfolioForAsset a fp p =
      ({ p with cash := p.cash + q * fp
                holdings := dictDelete p.holdings a.id
                position_info := dictDelete p.position_info a.id },
       [⟨p.user_id, a.id, q, fp, q * fp⟩],
       [⟨p.user_id, a.id, "settlement", q, fp, q * fp⟩]) := by
    unfold settlePortfolioForAsset
    rw [hq]
    simp only [if_pos hqpos]
  refine ⟨?_, ?_, ?_, ?_, ?_, ?_⟩
  · rw [hsp]
  · rw [hsp]
    exact dictLookup_dictDelete_self p.holdings a.id hwf1
  · rw [hsp]
    exact dictLookup_dictDelete_self p.position_info a.id hwf2
  · rw [hsp]
  · rw [hsp]
  · show (if finalPriceTruthy a then _ else _) = _
    rw [if_pos htr]
    simp only [hgetD, settleExpiredPositions, List.append_nil,
      List.map_map]
    rfl

/-- C6 amended, witness: a worthless asset settled at 0.005 pays the
single holder 5 × 0.005, removes both entries and emits one record of each
kind. -/
theorem C6_settlement_per_pair_witness :
    (settlePortfolioForAsset ⟨1, false, 0, 1 / 200, some (1 / 200)⟩ (1 / 200)
        ⟨7, 100, [(1, 5)], [(1, ⟨50, 5⟩)]⟩).1.cash = 100 + 5 * (1 / 200) ∧
    dictLookup (settlePortfolioForAsset ⟨1, false, 0, 1 / 200, some (1 / 200)⟩
        (1 / 200) ⟨7, 100, [(1, 5)], [(1, ⟨50, 5⟩)]⟩).1.holdings 1 = none ∧
    dictLookup (settlePortfolioForAsset ⟨1, false, 0, 1 / 200, some (1 / 200)⟩
        (1 / 200) ⟨7, 100, [(1, 5)], [(1, ⟨50, 5⟩)]⟩).1.position_info 1 =
      none ∧
    (settlePortfolioForAsset ⟨1, false, 0, 1 / 200, some (1 / 200)⟩ (1 / 200)
        ⟨7, 100, [(1, 5)], [(1, ⟨50, 5⟩)]⟩).2.1 =
      [⟨7, 1, 5, 1 / 200, 5 * (1 / 200)⟩] ∧
    (settlePortfolioForAsset ⟨1, false, 0, 1 / 200, some (1 / 200)⟩ (1 / 200)
        ⟨7, 100, [(1, 5)], [(1, ⟨50, 5⟩)]⟩).2.2 =
      [⟨7, 1, "settlement", 5, 1 / 200, 5 * (1 / 200)⟩] ∧
    settleExpiredPositions [⟨1, false, 0, 1 / 200, some (1 / 200)⟩]
        [⟨7, 100, [(1, 5)], [(1, ⟨50, 5⟩)]⟩] =
      ([⟨7, 100, [(1, 5)], [(1, ⟨50, 5⟩)]⟩].map fun r =>
        (settlePortfolioForAsset ⟨1, false, 0, 1 / 200, some (1 / 200)⟩
          (1 / 200) r).1,
       ([⟨7, 100, [(1, 5)], [(1, ⟨50, 5⟩)]⟩].map fun r =>
        (settlePortfolioForAsset ⟨1, false, 0, 1 / 200, some (1 / 200)⟩
          (1 / 200) r).2.1).flatten,
       ([⟨7, 100, [(1, 5)], [(1, ⟨50, 5⟩)]⟩].map fun r =>
        (settlePortfolioForAsset ⟨1, false, 0, 1 / 200, some (1 / 200)⟩
          (1 / 200) r).2.2).flatten) :=
  C6_settlement_per_pair ⟨1, false, 0, 1 / 200, some (1 / 200)⟩ (1 / 200)
    [⟨7, 100, [(1, 5)], [(1, ⟨50, 5⟩)]⟩] ⟨7, 100, [(1, 5)], [(1, ⟨50, 5⟩)]⟩
    5 rfl (by norm_num) rfl (by norm_num) (by decide) (by decide)

/-- The database contents the expiration sweep touches, plus the frozen
clock (`current_utc` is held fixed: no change to the clock between the two
calls). -/
structure World where
  assets : List MAsset
  portfolios : List MPortfolio
  now : ℤ
deriving Repr, DecidableEq

/-- AssetManager.get_expired_assets filter with unsettled_only=True:
expires_at ≤ now AND is_active. -/
def expiredCond (now : ℤ) (a : MAsset) : Bool :=
  a.is_active && decide (a.expires_at ≤ now)

/-- AssetManager.get_worthless_assets filter: is_active AND
current_price < 0.01. -/
def worthlessCond (a : MAsset) : Bool :=
  a.is_active && decide (a.current_price < 1 / 100)

/-- The per-asset effect of AssetManager.check_and_expire_assets:
`asset.expire(final_price=asset.current_price)` on each selected asset. -/
def expireStep (now : ℤ) (a : MAsset) : MAsset :=
  if expiredCond now a then expireAsset a (some a.current_price) else a

/-- The per-asset effect of
AssetManager.check_and_settle_worthless_assets. -/
def worthlessStep (a : MAsset) : MAsset :=
  if worthlessCond a then expireAsset a (some a.current_price) else a

/-- The result of one AssetManager.process_expirations call: the persisted
world plus the statistics of this call. -/
structure ExpirationResult where
  world : World
  newlyExpired : List MAsset
  worthless : List MAsset
  settlements : List SettlementRec
  transactions : List TransactionRec
deriving Repr, DecidableEq

/-- AssetManager.process_expirations (src/asset_manager.py lines 329-427):
Step 1 marks active assets past expires_at expired (check_and_expire),
Step 1.5 marks still-active assets priced below 0.01 expired
(check_and_settle_worthless), Step 2 settles the union of the two lists
against every portfolio, Step 3 calls maintain_asset_pool. The maintenance
call never adds an asset: when the pool is short it raises TypeError (the
create_new_asset keyword defect), and otherwise it creates none; the asset
rows committed by Steps 1-2 persist either way, since each step commits
separately. -/
def processExpirations (w : World) (minActive : ℕ) : ExpirationResult :=
  let newlyExpired := (w.assets.filter (expiredCond w.now)).map
    (fun a => expireAsset a (some a.current_price))
  let assetsAfterExpire := w.assets.map (expireStep w.now)
  let worthless := (assetsAfterExpire.filter worthlessCond).map
    (fun a => expireAsset a (some a.current_price))
  let assetsAfterWorthless := assetsAfterExpire.map worthlessStep
  let settled := settleExpiredPositions (newlyExpired ++ worthless)
    w.portfolios
  let _maintain := maintainAssetPool
    ((assetsAfterWorthless.filter (fun a => a.is_active)).length) minActive
  { world := ⟨assetsAfterWorthless, settled.1, w.now⟩
    newlyExpired := newlyExpired
    worthless := worthless
    settlements := settled.2.1
    transactions := settled.2.2 }

theorem list_map_id_of_eq {α : Type} (l : List α) (f : α → α)
    (h : ∀ a ∈ l, f a = a) : l.map f = l := by
  induction l with
  | nil => rfl
  | cons hd tl ih =>
      rw [List.map_cons, h hd (List.mem_cons_self hd tl),
        ih (fun a ha => h a (List.mem_cons_of_mem hd ha))]

theorem list_filter_eq_nil_of {α : Type} (l : List α) (p : α → Bool)
    (h : ∀ a ∈ l, p a = false) : l.filter p = [] := by
  induction l with
  | nil => rfl
  | cons hd tl ih =>
      rw [List.filter_cons, h hd (List.mem_cons_self hd tl)]
      simp only [Bool.false_eq_true, if_neg, not_false_iff]
      exact ih (fun a ha => h a (List.mem_cons_of_mem hd ha))

theorem expiredCond_expireAsset (now : ℤ) (a : MAsset) (fp : Option ℚ) :
    expiredCond now (expireAsset a fp) = false := by
  simp [expiredCond, expireAsset]

theorem worthlessCond_expireAsset (a : MAsset) (fp : Option ℚ) :
    worthlessCond (expireAsset a fp) = false := by
  simp [worthlessCond, expireAsset]

/-- One asset which has gone through both marking steps can satisfy
neither selection condition afterwards: the expiry transition fires only
for assets still active, and both steps deactivate. -/
theorem sweep_leaves_nothing_selectable (now : ℤ) (a : MAsset) :
    expiredCond now (worthlessStep (expireStep now a)) = false ∧
    worthlessCond (worthlessStep (expireStep now a)) = false := by
  unfold expireStep
  by_cases he : expiredCond now a = true
  · rw [if_pos he]
    unfold worthlessStep
    rw [if_neg (by rw [worthlessCond_expireAsset]; exact Bool.false_ne_true)]
    exact ⟨expiredCond_expireAsset now a _, worthlessCond_expireAsset a _⟩
  · rw [if_neg he]
    unfold worthlessStep
    by_cases hw : worthlessCond a = true
    · rw [if_pos hw]
      exact ⟨expiredCond_expireAsset now a _, worthlessCond_expireAsset a _⟩
    · rw [if_neg hw]
      exact ⟨Bool.eq_false_iff.mpr he, Bool.eq_false_iff.mpr hw⟩

/-- After a process_expirations call, no asset in the persisted world
satisfies either selection condition at the same clock. -/
theorem processExpirations_world_clean (w : World) (minActive : ℕ) :
    ∀ a ∈ (processExpirations w minActive).world.assets,
      expiredCond w.now a = false ∧ worthlessCond a = false := by
  intro a ha
  have hassets : (processExpirations w minActive).world.assets =
      (w.assets.map (expireStep w.now)).map worthlessStep := rfl
  rw [hassets] at ha
  obtain ⟨b, hb, rfl⟩ := List.mem_map.mp ha
  obtain ⟨c, hc, rfl⟩ := List.mem_map.mp hb
  exact sweep_leaves_nothing_selectable w.now c

/-- On a world in which nothing is selectable, process_expirations is the
identity with empty statistics. -/
theorem processExpirations_of_clean (w : World) (minActive : ℕ)
    (h : ∀ a ∈ w.assets,
      expiredCond w.now a = false ∧ worthlessCond a = false) :
    processExpirations w minActive = ⟨w, [], [], [], []⟩ := by
  have hfE : w.assets.filter (expiredCond w.now) = [] :=
    list_filter_eq_nil_of _ _ (fun a ha => (h a ha).1)
  have hmE : w.assets.map (expireStep w.now) = w.assets :=
    list_map_id_of_eq _ _ (fun a ha => by
      unfold expireStep
      rw [if_neg (by rw [(h a ha).1]; exact Bool.false_ne_true)])
  have hfW : w.assets.filter worthlessCond = [] :=
    list_filter_eq_nil_of _ _ (fun a ha => (h a ha).2)
  have hmW : w.assets.map worthlessStep = w.assets :=
    list_map_id_of_eq _ _ (fun a ha => by
      unfold worthlessStep
      rw [if_neg (by rw [(h a ha).2]; exact Bool.false_ne_true)])
  simp only [processExpirations, hmE, hfE, hfW, hmW, List.map_nil,
    List.nil_append]
  rfl

/-- C9: process_expirations is idempotent under a frozen clock and frozen
prices: the second of two consecutive calls marks no asset expired, finds
no worthless asset, and produces zero Settlement records and zero
settlement Transactions, leaving the world exactly as the first call left
it. -/
theorem C9_process_expirations_idempotent (w : World) (minActive : ℕ) :
    processExpirations (processExpirations w minActive).world minActive =
      ⟨(processExpirations w minActive).world, [], [], [], []⟩ :=
  processExpirations_of_clean (processExpirations w minActive).world
    minActive (processExpirations_world_clean w minActive)

end Martingale
